import Mathlib

/-!
Shallow embedding of the notion-sync repository (forward sync, cleanup,
routing, property mapping, block sanitization and the retry wrapper) with
theorems about the replication protocol.

JavaScript objects that are used as string-keyed records are modelled as
association lists with last-write-wins assignment (jsSet) and first-match
lookup (jsGet); JavaScript object literals have unique keys, so the two
access disciplines agree on every map built here.  Absent (undefined) and
null values are modelled with Option.
-/

/-- Lookup of a key in a string-keyed record, as JavaScript property access. -/
def jsGet {β : Type} : List (String × β) → String → Option β
  | [], _ => none
  | (k', v) :: rest, k => if k' = k then some v else jsGet rest k

/-- Assignment of a key in a string-keyed record: updates the binding in
place when the key is present, otherwise appends it, as JavaScript
assignment does. -/
def jsSet {β : Type} : List (String × β) → String → β → List (String × β)
  | [], k, v => [(k, v)]
  | (k', v') :: rest, k, v =>
    if k' = k then (k, v) :: rest else (k', v') :: jsSet rest k v

theorem jsGet_jsSet_self {β : Type} (m : List (String × β)) (k : String) (v : β) :
    jsGet (jsSet m k v) k = some v := by
  induction m with
  | nil => simp [jsGet, jsSet]
  | cons hd tl ih =>
    obtain ⟨k', v'⟩ := hd
    by_cases h : k' = k <;> simp [jsGet, jsSet, h, ih]

theorem jsGet_jsSet_ne {β : Type} (m : List (String × β)) (k k' : String) (v : β)
    (h : k' ≠ k) : jsGet (jsSet m k v) k' = jsGet m k' := by
  induction m with
  | nil => simp [jsGet, jsSet, Ne.symm h]
  | cons hd tl ih =>
    obtain ⟨k0, v0⟩ := hd
    by_cases h0 : k0 = k
    · subst h0
      simp [jsGet, jsSet, Ne.symm h]
    · by_cases h1 : k0 = k' <;> simp [jsGet, jsSet, h0, h1, ih, h]

/-! ## Routing table (src/utils.js, getTargetDatabases and getTypePrefix) -/

/-- Fixed lookup from the job category to the database key namespace, from
the object literal in getTypePrefix; an unknown category yields null,
modelled as none. -/
def getTypePrefix (jobType : String) : Option String :=
  if jobType = "動画制作" then some "video"
  else if jobType = "デザイン制作" then some "design"
  else none

/-- Routing table from src/utils.js: resolves the category to a namespace
and applies the tier cascade over the level switch. -/
def getTargetDatabases (jobType level : String) : List String :=
  match getTypePrefix jobType with
  | none => []
  | some pre =>
    if level = "レベル1" then
      [pre ++ "_level1", pre ++ "_level2", pre ++ "_level3"]
    else if level = "レベル2" then
      [pre ++ "_level2", pre ++ "_level3"]
    else if level = "レベル3" then
      [pre ++ "_level3"]
    else []

/-! ## Data model of pages and properties (Notion API shapes used by the code) -/

/-- One rich text span, carried through the mapper verbatim; the fields the
code never inspects are collapsed into the plain text payload. -/
structure RichTextSpan where
  plain_text : String
deriving DecidableEq, Repr

/-- Value of one selected option; the code projects out only the name. -/
structure SelectVal where
  name : String
  color : Option String := none
deriving DecidableEq, Repr

/-- Date range object, passed through the mapper as-is. -/
structure DateVal where
  start : Option String := none
  end_ : Option String := none
deriving DecidableEq, Repr

/-- The unique_id payload of the master record identifier property. -/
structure UniqueId where
  number : Option Int := none
deriving DecidableEq, Repr

/-- One source property as read from the Notion API: a type tag plus the
type-keyed payload fields the code dereferences.  A payload field that the
real object lacks is none (undefined). -/
structure SourceProp where
  type : String
  title : Option (List RichTextSpan) := none
  rich_text : Option (List RichTextSpan) := none
  number : Option Int := none
  select : Option SelectVal := none
  multi_select : Option (List SelectVal) := none
  date : Option DateVal := none
  url : Option String := none
  checkbox : Option Bool := none
  email : Option String := none
  phone_number : Option String := none
  unique_id : Option UniqueId := none
deriving DecidableEq, Repr

/-- A target-writable property value, one constructor per emitted shape of
buildPropertyValue plus the synthesized title and number shapes of
mapProperties. -/
inductive PropValue where
  | rich_text (spans : List RichTextSpan)
  | number (n : Option Int)
  | select (s : Option String)
  | multi_select (names : List String)
  | date (d : Option DateVal)
  | url (u : Option String)
  | checkbox (b : Option Bool)
  | email (e : Option String)
  | phone_number (p : Option String)
  | title (spans : List RichTextSpan)
deriving DecidableEq, Repr

/-- A page object: identifier plus the string-keyed property record. -/
structure Page where
  id : String
  properties : List (String × SourceProp)
deriving DecidableEq, Repr

/-! ## Property mapper (src/utils.js, mapProperties and buildPropertyValue) -/

/-- Translation of buildPropertyValue: the switch over the property type
tag, with the JavaScript or-else fallbacks on the payload fields. -/
def buildPropertyValue (prop : SourceProp) : PropValue :=
  if prop.type = "rich_text" then .rich_text (prop.rich_text.getD [])
  else if prop.type = "number" then .number prop.number
  else if prop.type = "select" then
    match prop.select with
    | some s => .select (some s.name)
    | none => .select none
  else if prop.type = "multi_select" then
    .multi_select ((prop.multi_select.getD []).map SelectVal.name)
  else if prop.type = "date" then .date prop.date
  else if prop.type = "url" then .url prop.url
  else if prop.type = "checkbox" then .checkbox prop.checkbox
  else if prop.type = "email" then .email prop.email
  else if prop.type = "phone_number" then .phone_number prop.phone_number
  else .rich_text (prop.rich_text.getD [])

/-- The copy loop of mapProperties: walks the copy list, skips the two
reserved names, skips absent properties, and assigns the converted value. -/
def mapCopyLoop (props : List (String × SourceProp)) :
    List String → List (String × PropValue) → List (String × PropValue)
  | [], mapped => mapped
  | f :: rest, mapped =>
    if f = "案件詳細" then mapCopyLoop props rest mapped
    else if f = "案件名" then mapCopyLoop props rest mapped
    else
      match jsGet props f with
      | none => mapCopyLoop props rest mapped
      | some prop => mapCopyLoop props rest (jsSet mapped f (buildPropertyValue prop))

/-- The title statement of mapProperties: when the title property exists,
assign the title field with the span list, defaulting an absent list to
empty. -/
def titleStep (props : List (String × SourceProp)) (mapped : List (String × PropValue)) :
    List (String × PropValue) :=
  match jsGet props "案件名" with
  | some titleProp => jsSet mapped "案件名" (PropValue.title (titleProp.title.getD []))
  | none => mapped

/-- The master identifier statement of mapProperties: when the identifier
property and its unique_id payload exist, assign the back-reference number
field. -/
def masterIdStep (props : List (String × SourceProp)) (mapped : List (String × PropValue)) :
    List (String × PropValue) :=
  match jsGet props "案件ID" with
  | some idProp =>
    match idProp.unique_id with
    | some uid => jsSet mapped "マスター案件ID" (PropValue.number uid.number)
    | none => mapped
  | none => mapped

/-- Translation of mapProperties: the copy loop, then the title property
statement, then the master identifier back-reference statement. -/
def mapProperties (page : Page) (copyFields : List String) : List (String × PropValue) :=
  masterIdStep page.properties (titleStep page.properties (mapCopyLoop page.properties copyFields []))

/-! ## Content sanitizer (src/unnamed/part_000, sanitizeBlock) -/

/-- A content block: the kind tag, the kind-keyed payload object (none when
the payload is absent), and the remaining server-populated top-level keys
of the object as read from the API. -/
structure ContentBlock (α : Type) where
  type : String
  payload : Option (List (String × α))
  extras : List (String × α) := []
deriving DecidableEq, Repr

/-- The eight read-only keys deleted from the payload by sanitizeBlock. -/
def readonlyKeys : List String :=
  ["id", "created_time", "last_edited_time", "created_by", "last_edited_by",
   "has_children", "parent", "archived"]

/-- Removal of the eight read-only keys from a payload object, the effect of
the delete statements on the spread copy in sanitizeBlock. -/
def eraseReadonly {α : Type} (m : List (String × α)) : List (String × α) :=
  m.filter (fun kv => !readonlyKeys.contains kv.1)

/-- Translation of sanitizeBlock: keep the kind tag, replace an absent
payload by an empty object, otherwise delete the read-only keys from a copy
of the payload; the returned object has no other top-level keys. -/
def sanitizeBlock {α : Type} (block : ContentBlock α) : ContentBlock α :=
  match block.payload with
  | none => { type := block.type, payload := some [], extras := [] }
  | some content => { type := block.type, payload := some (eraseReadonly content), extras := [] }

/-- The children pipeline of the sync main loop: drop child_database and
child_page blocks, then sanitize each remaining block. -/
def prepareChildren {α : Type} (blocks : List (ContentBlock α)) : List (ContentBlock α) :=
  (blocks.filter (fun b => b.type != "child_database" && b.type != "child_page")).map sanitizeBlock

/-! ## Retry wrapper (src/cleanup.js companion client, withRetry and isRetryable) -/

/-- The loosely typed error object inspected by the retry logic: an optional
code string, an optional numeric status, and the optional numeric
retry-after header. -/
structure JsError where
  code : Option String := none
  status : Option Int := none
  retryAfter : Option Nat := none
deriving DecidableEq, Repr

/-- Outcome of one invocation of the wrapped remote call. -/
inductive CallResult (ρ : Type) where
  | success (r : ρ)
  | failure (e : JsError)
deriving DecidableEq, Repr

/-- Maximum number of attempts of withRetry. -/
def MAX_RETRIES : Nat := 3

/-- Minimum spacing in milliseconds slept after a successful call. -/
def API_INTERVAL_MS : Nat := 350

/-- Translation of isRetryable: a retryable code string, or a server status
of at least 500; an absent code or status fails its test as in JavaScript. -/
def isRetryable (e : JsError) : Bool :=
  (match e.code with
   | some c => ["ECONNREFUSED", "ECONNRESET", "ETIMEDOUT", "rate_limited"].contains c
   | none => false)
  || (match e.status with
      | some s => decide (s ≥ 500)
      | none => false)

/-- The advised retry-after wait in seconds: the header value when present
and non-zero (zero is falsy in JavaScript), otherwise 60. -/
def retryAfterSecs (e : JsError) : Nat :=
  match e.retryAfter with
  | some n => if n = 0 then 60 else n
  | none => 60

/-- One observable event of the retry wrapper: an invocation of the wrapped
call with its attempt number, or a sleep in milliseconds. -/
inductive RetryEvent where
  | attemptCall (n : Nat)
  | sleepMs (ms : Nat)
deriving DecidableEq, Repr

/-- Result of withRetry: the returned value, a raised error, or the
JavaScript fall-through that returns undefined after the loop ends. -/
inductive RetryOutcome (ρ : Type) where
  | ok (r : ρ)
  | err (e : JsError)
  | noResult
deriving DecidableEq, Repr

/-- The retry loop of withRetry.  The wrapped call is a function from the
attempt number to its outcome; fuel counts the remaining loop iterations,
so the loop body runs with fuel = MAX_RETRIES - attempt + 1.  The returned
trace records calls and sleeps in order. -/
def withRetryLoop {ρ : Type} (fn : Nat → CallResult ρ) :
    Nat → Nat → List RetryEvent × RetryOutcome ρ
  | _, 0 => ([], .noResult)
  | attempt, fuel + 1 =>
    match fn attempt with
    | .success r => ([.attemptCall attempt, .sleepMs API_INTERVAL_MS], .ok r)
    | .failure e =>
      if e.code = some "rate_limited" then
        let rest := withRetryLoop fn (attempt + 1) fuel
        (.attemptCall attempt :: .sleepMs (retryAfterSecs e * 1000) :: rest.1, rest.2)
      else if decide (attempt < MAX_RETRIES) && isRetryable e then
        let rest := withRetryLoop fn (attempt + 1) fuel
        (.attemptCall attempt :: .sleepMs (2 ^ attempt * 1000) :: rest.1, rest.2)
      else ([.attemptCall attempt], .err e)

/-- Translation of withRetry: run the loop from attempt 1. -/
def withRetry {ρ : Type} (fn : Nat → CallResult ρ) : List RetryEvent × RetryOutcome ρ :=
  withRetryLoop fn 1 MAX_RETRIES

/-- Number of invocations of the wrapped call recorded in a trace. -/
def numAttempts (t : List RetryEvent) : Nat :=
  (t.filter (fun e => match e with | .attemptCall _ => true | _ => false)).length

/-- Whether the loop proceeds past an attempt with the given outcome: the
failure branches of withRetry that continue instead of returning. -/
def advances {ρ : Type} (o : CallResult ρ) (j : Nat) : Bool :=
  match o with
  | .success _ => false
  | .failure e =>
    decide (e.code = some "rate_limited") || (decide (j < MAX_RETRIES) && isRetryable e)

/-- The loop reaches attempt k when every earlier attempt fails and takes a
continue branch. -/
def reaches {ρ : Type} (fn : Nat → CallResult ρ) (k : Nat) : Prop :=
  ∀ j, 1 ≤ j → j < k → advances (fn j) j = true

/-! ## Sync orchestrator (src/unnamed/part_000, main) -/

/-- Run tally of the sync main loop. -/
structure Tally where
  created : Nat
  skipped : Nat
  errors : Nat
deriving DecidableEq, Repr

/-- Pointwise addition of tallies. -/
def addTally (a b : Tally) : Tally :=
  { created := a.created + b.created,
    skipped := a.skipped + b.skipped,
    errors := a.errors + b.errors }

/-- One remote mutation-path action issued by the sync loop: the per-target
existence query, or a page creation with its payload. -/
inductive SyncAction where
  | queryExisting (dbId : String) (masterId : Int)
  | create (dbId : String) (props : List (String × PropValue)) (children : List (ContentBlock String))
deriving DecidableEq, Repr

/-- Environment of one sync run: the public database configuration and the
outcomes of the remote calls.  Except models a thrown error. -/
structure SyncEnv where
  cfgPublic : String → Option String
  queryResult : String → Int → Except Unit (List String)
  createResult : String → Except Unit String
  blocksResult : String → Except Unit (List (ContentBlock String))

/-- The per-target body of the sync loop: missing database id is an error;
otherwise query for the master id, skip when a match exists, otherwise
create, counting a thrown create as an error. -/
def processTarget (env : SyncEnv) (masterId : Int) (props : List (String × PropValue))
    (children : List (ContentBlock String)) (dbKey : String) : List SyncAction × Tally :=
  match env.cfgPublic dbKey with
  | none => ([], { created := 0, skipped := 0, errors := 1 })
  | some dbId =>
    if dbId = "" then ([], { created := 0, skipped := 0, errors := 1 })
    else
      match env.queryResult dbId masterId with
      | .error _ => ([.queryExisting dbId masterId], { created := 0, skipped := 0, errors := 1 })
      | .ok existing =>
        if existing.length > 0 then
          ([.queryExisting dbId masterId], { created := 0, skipped := 1, errors := 0 })
        else
          match env.createResult dbId with
          | .ok _ =>
            ([.queryExisting dbId masterId, .create dbId props children],
             { created := 1, skipped := 0, errors := 0 })
          | .error _ =>
            ([.queryExisting dbId masterId, .create dbId props children],
             { created := 0, skipped := 0, errors := 1 })

/-- The inner for loop over the resolved target database keys. -/
def processTargets (env : SyncEnv) (masterId : Int) (props : List (String × PropValue))
    (children : List (ContentBlock String)) : List String → List SyncAction × Tally
  | [] => ([], { created := 0, skipped := 0, errors := 0 })
  | dbKey :: rest =>
    let one := processTarget env masterId props children dbKey
    let more := processTargets env masterId props children rest
    (one.1 ++ more.1, addTally one.2 more.2)

/-- Category of the job record, read as properties[案件タイプ]?.select?.name. -/
def getJobType (job : Page) : Option String :=
  ((jsGet job.properties "案件タイプ").bind SourceProp.select).map SelectVal.name

/-- Tier of the job record, read as properties[レベル]?.select?.name. -/
def getLevel (job : Page) : Option String :=
  ((jsGet job.properties "レベル").bind SourceProp.select).map SelectVal.name

/-- Master identifier of the record, read as properties[案件ID]?.unique_id?.number. -/
def getMasterId (job : Page) : Option Int :=
  ((jsGet job.properties "案件ID").bind SourceProp.unique_id).bind UniqueId.number

/-- JavaScript truthiness of an optional string: undefined and the empty
string are falsy. -/
def jsTruthy : Option String → Bool
  | some s => s != ""
  | none => false

/-- The per-record body of the sync main loop: validation, routing, mapping,
best-effort content fetch, then the per-target loop. -/
def processJob (env : SyncEnv) (copyFields : List String) (job : Page) :
    List SyncAction × Tally :=
  let jobType := getJobType job
  let level := getLevel job
  let masterId := getMasterId job
  if !(jsTruthy jobType) || !(jsTruthy level) || masterId.isNone then
    ([], { created := 0, skipped := 0, errors := 1 })
  else
    match jobType, level, masterId with
    | some jt, some lv, some mid =>
      let targetDbKeys := getTargetDatabases jt lv
      if targetDbKeys.isEmpty then ([], { created := 0, skipped := 1, errors := 0 })
      else
        let props := mapProperties job copyFields
        let children :=
          match env.blocksResult job.id with
          | .ok blocks => prepareChildren blocks
          | .error _ => []
        processTargets env mid props children targetDbKeys
    | _, _, _ => ([], { created := 0, skipped := 0, errors := 1 })

/-- The sync main loop over the fetched list of open records. -/
def runSync (env : SyncEnv) (copyFields : List String) : List Page → List SyncAction × Tally
  | [] => ([], { created := 0, skipped := 0, errors := 0 })
  | job :: rest =>
    let one := processJob env copyFields job
    let more := runSync env copyFields rest
    (one.1 ++ more.1, addTally one.2 more.2)

/-- The create actions of a sync trace. -/
def createsOf (acts : List SyncAction) : List SyncAction :=
  acts.filter (fun a => match a with | .create _ _ _ => true | _ => false)

/-! ## Cleanup orchestrator (src/cleanup.js, main) -/

/-- One remote action issued by the cleanup loop: the per-collection search,
or an archive call on a page. -/
inductive CleanupAction where
  | query (dbId : String) (masterId : Int)
  | archive (pageId : String)
deriving DecidableEq, Repr

/-- Environment of one cleanup run: outcomes of the remote calls. -/
structure CleanupEnv where
  queryResult : String → Int → Except Unit (List String)
  archiveResult : String → Except Unit Unit

/-- The inner archive loop over the pages found in one collection: archives
in order until a call throws; returns the issued actions, the number of
completed archives, and whether the loop finished without a throw. -/
def archiveLoop (arch : String → Except Unit Unit) : List String → List CleanupAction × Nat × Bool
  | [] => ([], 0, true)
  | p :: rest =>
    match arch p with
    | .ok _ =>
      let more := archiveLoop arch rest
      (.archive p :: more.1, more.2.1 + 1, more.2.2)
    | .error _ => ([.archive p], 0, false)

/-- The per-collection body of the cleanup fan-out: skip a falsy database
id, query for the master id, archive every match; a throw anywhere in the
collection counts one error for it. -/
def processDb (env : CleanupEnv) (masterId : Int) (dbId : String) :
    List CleanupAction × Nat × Nat :=
  if dbId = "" then ([], 0, 0)
  else
    match env.queryResult dbId masterId with
    | .error _ => ([.query dbId masterId], 0, 1)
    | .ok found =>
      let res := archiveLoop env.archiveResult found
      (.query dbId masterId :: res.1, res.2.1, if res.2.2 then 0 else 1)

/-- The fan-out of one closed record over the configured public collections:
actions, archived count, error count. -/
def processCleanupRecord (env : CleanupEnv) (masterId : Int) :
    List (String × String) → List CleanupAction × Nat × Nat
  | [] => ([], 0, 0)
  | (_, dbId) :: rest =>
    let one := processDb env masterId dbId
    let more := processCleanupRecord env masterId rest
    (one.1 ++ more.1, one.2.1 + more.2.1, one.2.2 + more.2.2)

/-- The pages archived in a cleanup trace, in order. -/
def archivedPages (acts : List CleanupAction) : List String :=
  acts.filterMap (fun a => match a with | .archive p => some p | _ => none)

/-! ## Theorems: routing table -/

/-- C2: for every (category, tier) pair the routing function returns exactly
the documented cascade; the two known categories with the three known tiers
produce the level cascade over their namespace, an unknown category yields
the empty list, and an unknown tier yields the empty list. -/
theorem getTargetDatabases_cascade :
    getTargetDatabases "動画制作" "レベル1" = ["video_level1", "video_level2", "video_level3"]
    ∧ getTargetDatabases "動画制作" "レベル2" = ["video_level2", "video_level3"]
    ∧ getTargetDatabases "動画制作" "レベル3" = ["video_level3"]
    ∧ getTargetDatabases "デザイン制作" "レベル1" = ["design_level1", "design_level2", "design_level3"]
    ∧ getTargetDatabases "デザイン制作" "レベル2" = ["design_level2", "design_level3"]
    ∧ getTargetDatabases "デザイン制作" "レベル3" = ["design_level3"]
    ∧ (∀ jobType level, jobType ≠ "動画制作" → jobType ≠ "デザイン制作" →
        getTargetDatabases jobType level = [])
    ∧ (∀ jobType level, level ≠ "レベル1" → level ≠ "レベル2" → level ≠ "レベル3" →
        getTargetDatabases jobType level = []) := by
  refine ⟨by decide, by decide, by decide, by decide, by decide, by decide, ?_, ?_⟩
  · intro jt lv h1 h2
    simp [getTargetDatabases, getTypePrefix, h1, h2]
  · intro jt lv h1 h2 h3
    unfold getTargetDatabases
    cases getTypePrefix jt <;> simp [h1, h2, h3]

/-- Witness for C2 at concrete unknown category and unknown tier values. -/
theorem getTargetDatabases_cascade_witness :
    getTargetDatabases "プログラミング" "レベル1" = []
    ∧ getTargetDatabases "動画制作" "レベル4" = [] :=
  ⟨getTargetDatabases_cascade.2.2.2.2.2.2.1 "プログラミング" "レベル1" (by decide) (by decide),
   getTargetDatabases_cascade.2.2.2.2.2.2.2 "動画制作" "レベル4" (by decide) (by decide) (by decide)⟩

/-! ## Theorems: content sanitizer -/

theorem sanitizeBlock_type {α : Type} (b : ContentBlock α) :
    (sanitizeBlock b).type = b.type := by
  cases h : b.payload <;> simp [sanitizeBlock, h]

theorem mem_eraseReadonly {α : Type} (p : List (String × α)) (kv : String × α) :
    kv ∈ eraseReadonly p ↔ kv ∈ p ∧ kv.1 ∉ readonlyKeys := by
  simp [eraseReadonly, List.mem_filter]

/-- C7: the sanitizer keeps the kind tag, keeps the kind-specific payload
unchanged except that the eight read-only keys are removed, maps an absent
payload to an empty object, leaves no read-only attribute and no extra
top-level key in the output, and the children pipeline drops child_database
and child_page blocks before sanitizing the rest. -/
theorem sanitizeBlock_strips_readonly :
    (∀ (α : Type) (b : ContentBlock α), (sanitizeBlock b).type = b.type)
    ∧ (∀ (α : Type) (b : ContentBlock α) (p : List (String × α)), b.payload = some p →
        ∃ q, (sanitizeBlock b).payload = some q ∧
          ∀ kv, kv ∈ q ↔ kv ∈ p ∧ kv.1 ∉ readonlyKeys)
    ∧ (∀ (α : Type) (b : ContentBlock α), b.payload = none →
        (sanitizeBlock b).payload = some [])
    ∧ (∀ (α : Type) (b : ContentBlock α) (q : List (String × α)),
        (sanitizeBlock b).payload = some q → ∀ kv ∈ q, kv.1 ∉ readonlyKeys)
    ∧ (∀ (α : Type) (b : ContentBlock α), (sanitizeBlock b).extras = [])
    ∧ (∀ (α : Type) (blocks : List (ContentBlock α)) (c : ContentBlock α),
        c ∈ prepareChildren blocks →
          c.type ≠ "child_database" ∧ c.type ≠ "child_page" ∧ ∃ b ∈ blocks, c = sanitizeBlock b)
    ∧ (∀ (α : Type) (blocks : List (ContentBlock α)) (b : ContentBlock α),
        b ∈ blocks → b.type ≠ "child_database" → b.type ≠ "child_page" →
        sanitizeBlock b ∈ prepareChildren blocks) := by
  refine ⟨fun α b => sanitizeBlock_type b, ?_, ?_, ?_, ?_, ?_, ?_⟩
  · intro α b p h
    exact ⟨eraseReadonly p, by simp [sanitizeBlock, h], fun kv => mem_eraseReadonly p kv⟩
  · intro α b h
    simp [sanitizeBlock, h]
  · intro α b q hq kv hkv
    cases h : b.payload with
    | none =>
      rw [sanitizeBlock, h] at hq
      simp at hq
      subst hq
      cases hkv
    | some p =>
      rw [sanitizeBlock, h] at hq
      simp at hq
      subst hq
      exact ((mem_eraseReadonly p kv).mp hkv).2
  · intro α b
    cases h : b.payload <;> simp [sanitizeBlock, h]
  · intro α blocks c hc
    simp only [prepareChildren, List.mem_map, List.mem_filter] at hc
    obtain ⟨b, ⟨hb, hpred⟩, rfl⟩ := hc
    simp only [Bool.and_eq_true, bne_iff_ne] at hpred
    refine ⟨?_, ?_, b, hb, rfl⟩
    · rw [sanitizeBlock_type]; exact hpred.1
    · rw [sanitizeBlock_type]; exact hpred.2
  · intro α blocks b hb h1 h2
    simp only [prepareChildren, List.mem_map]
    exact ⟨b, List.mem_filter.mpr ⟨hb, by simp [h1, h2]⟩, rfl⟩

/-- A paragraph block with read-only attributes populated in the payload and
at the top level. -/
def paragraphBlock : ContentBlock String :=
  { type := "paragraph",
    payload := some [("rich_text", "body"), ("id", "blk-1"), ("archived", "true")],
    extras := [("id", "blk-1"), ("created_time", "t0")] }

/-- A block whose kind-specific payload is absent. -/
def emptyPayloadBlock : ContentBlock String :=
  { type := "image", payload := none }

/-- Witness for C7 at a concrete block with populated read-only attributes
and a concrete block with an absent payload. -/
theorem sanitizeBlock_strips_readonly_witness :
    (∃ q, (sanitizeBlock paragraphBlock).payload = some q ∧
      ∀ kv, kv ∈ q ↔
        kv ∈ [("rich_text", "body"), ("id", "blk-1"), ("archived", "true")] ∧ kv.1 ∉ readonlyKeys)
    ∧ (sanitizeBlock emptyPayloadBlock).payload = some [] :=
  ⟨sanitizeBlock_strips_readonly.2.1 String paragraphBlock _ rfl,
   sanitizeBlock_strips_readonly.2.2.1 String emptyPayloadBlock rfl⟩

theorem eraseReadonly_idem {α : Type} (m : List (String × α)) :
    eraseReadonly (eraseReadonly m) = eraseReadonly m := by
  simp [eraseReadonly, List.filter_filter]

/-- C10: the sanitizer is idempotent; sanitizing an already sanitized block
returns the same block. -/
theorem sanitizeBlock_idempotent {α : Type} (b : ContentBlock α) :
    sanitizeBlock (sanitizeBlock b) = sanitizeBlock b := by
  cases h : b.payload with
  | none => simp [sanitizeBlock, h, eraseReadonly]
  | some content => simp [sanitizeBlock, h, eraseReadonly_idem]

/-! ## Theorems: retry wrapper -/

@[simp] theorem numAttempts_nil : numAttempts [] = 0 := rfl

@[simp] theorem numAttempts_cons_call (n : Nat) (t : List RetryEvent) :
    numAttempts (.attemptCall n :: t) = numAttempts t + 1 := by
  simp [numAttempts, List.filter]

@[simp] theorem numAttempts_cons_sleep (ms : Nat) (t : List RetryEvent) :
    numAttempts (.sleepMs ms :: t) = numAttempts t := by
  simp [numAttempts, List.filter]

theorem withRetryLoop_attempts_le {ρ : Type} (fn : Nat → CallResult ρ) :
    ∀ (fuel a : Nat), numAttempts (withRetryLoop fn a fuel).1 ≤ fuel := by
  intro fuel
  induction fuel with
  | zero => intro a; simp [withRetryLoop]
  | succ n ih =>
    intro a
    unfold withRetryLoop
    cases hf : fn a with
    | success r => simp
    | failure e =>
      dsimp only
      by_cases hrl : e.code = some "rate_limited"
      · rw [if_pos hrl]
        simpa using ih (a + 1)
      · rw [if_neg hrl]
        by_cases hb : (decide (a < MAX_RETRIES) && isRetryable e) = true
        · rw [if_pos hb]
          simpa using ih (a + 1)
        · rw [if_neg hb]
          simp

theorem withRetryLoop_head {ρ : Type} (fn : Nat → CallResult ρ) (a fuel : Nat) :
    ∃ rest, (withRetryLoop fn a (fuel + 1)).1 = .attemptCall a :: rest := by
  unfold withRetryLoop
  cases hf : fn a with
  | success r => exact ⟨_, rfl⟩
  | failure e =>
    dsimp only
    by_cases hrl : e.code = some "rate_limited"
    · rw [if_pos hrl]; exact ⟨_, rfl⟩
    · rw [if_neg hrl]
      by_cases hb : (decide (a < MAX_RETRIES) && isRetryable e) = true
      · rw [if_pos hb]; exact ⟨_, rfl⟩
      · rw [if_neg hb]; exact ⟨_, rfl⟩

theorem withRetryLoop_rl_step {ρ : Type} (fn : Nat → CallResult ρ) (a fuel : Nat) (e : JsError)
    (hf : fn a = .failure e) (hrl : e.code = some "rate_limited") :
    withRetryLoop fn a (fuel + 1)
      = (.attemptCall a :: .sleepMs (retryAfterSecs e * 1000) :: (withRetryLoop fn (a + 1) fuel).1,
         (withRetryLoop fn (a + 1) fuel).2) := by
  conv_lhs => unfold withRetryLoop
  rw [hf]
  dsimp only
  rw [if_pos hrl]

theorem withRetryLoop_transient_step {ρ : Type} (fn : Nat → CallResult ρ) (a fuel : Nat) (e : JsError)
    (hf : fn a = .failure e) (hrl : e.code ≠ some "rate_limited")
    (hlt : a < MAX_RETRIES) (hretry : isRetryable e = true) :
    withRetryLoop fn a (fuel + 1)
      = (.attemptCall a :: .sleepMs (2 ^ a * 1000) :: (withRetryLoop fn (a + 1) fuel).1,
         (withRetryLoop fn (a + 1) fuel).2) := by
  conv_lhs => unfold withRetryLoop
  rw [hf]
  dsimp only
  rw [if_neg hrl, if_pos (by simp [hlt, hretry])]

theorem withRetryLoop_fatal_step {ρ : Type} (fn : Nat → CallResult ρ) (a fuel : Nat) (e : JsError)
    (hf : fn a = .failure e) (hrl : e.code ≠ some "rate_limited")
    (hfatal : isRetryable e = false) :
    withRetryLoop fn a (fuel + 1) = ([.attemptCall a], .err e) := by
  unfold withRetryLoop
  rw [hf]
  dsimp only
  rw [if_neg hrl, if_neg (by simp [hfatal])]

theorem advances_failure {ρ : Type} (o : CallResult ρ) (j : Nat)
    (h : advances o j = true) : ∃ e, o = .failure e := by
  cases o with
  | success r => simp [advances] at h
  | failure e => exact ⟨e, rfl⟩

theorem withRetryLoop_advance {ρ : Type} (fn : Nat → CallResult ρ) (a fuel : Nat) (e : JsError)
    (hf : fn a = .failure e) (hadv : advances (fn a) a = true) :
    ∃ s, withRetryLoop fn a (fuel + 1)
        = (.attemptCall a :: .sleepMs s :: (withRetryLoop fn (a + 1) fuel).1,
           (withRetryLoop fn (a + 1) fuel).2) := by
  by_cases hrl : e.code = some "rate_limited"
  · exact ⟨_, withRetryLoop_rl_step fn a fuel e hf hrl⟩
  · rw [hf] at hadv
    simp only [advances, Bool.or_eq_true, decide_eq_true_eq] at hadv
    rcases hadv with hadv | hadv
    · exact absurd hadv hrl
    · simp only [Bool.and_eq_true, decide_eq_true_eq] at hadv
      exact ⟨_, withRetryLoop_transient_step fn a fuel e hf hrl hadv.1 hadv.2⟩

theorem withRetry_eq_loop {ρ : Type} (fn : Nat → CallResult ρ) :
    withRetry fn = withRetryLoop fn 1 3 := rfl

/-- C3: the retry wrapper makes at most three attempts in total; a rate
limited failure on attempt 1 or 2 sleeps the advised retry-after duration
(60 seconds when the header is unspecified) and is followed by the next
attempt; a transient failure on attempt 1 or 2 sleeps 2 to the power
attempt seconds and is followed by the next attempt; an error that is
neither rate limited nor retryable ends the call at once with that error
and no further attempt. -/
theorem withRetry_policy :
    ∀ (ρ : Type) (fn : Nat → CallResult ρ),
      numAttempts (withRetry fn).1 ≤ 3
      ∧ (∀ k e, (k = 1 ∨ k = 2) → reaches fn k → fn k = .failure e →
          e.code = some "rate_limited" →
          [RetryEvent.attemptCall k, RetryEvent.sleepMs (retryAfterSecs e * 1000),
            RetryEvent.attemptCall (k + 1)] <:+: (withRetry fn).1)
      ∧ (∀ k e, (k = 1 ∨ k = 2) → reaches fn k → fn k = .failure e →
          e.code ≠ some "rate_limited" → isRetryable e = true →
          [RetryEvent.attemptCall k, RetryEvent.sleepMs (2 ^ k * 1000),
            RetryEvent.attemptCall (k + 1)] <:+: (withRetry fn).1)
      ∧ (∀ k e, 1 ≤ k → k ≤ 3 → reaches fn k → fn k = .failure e →
          e.code ≠ some "rate_limited" → isRetryable e = false →
          (withRetry fn).2 = .err e ∧ numAttempts (withRetry fn).1 = k) := by
  intro ρ fn
  refine ⟨withRetryLoop_attempts_le fn MAX_RETRIES 1, ?_, ?_, ?_⟩
  · intro k e hk hre hf hrl
    rcases hk with rfl | rfl
    · have hstep : withRetryLoop fn 1 3
          = (.attemptCall 1 :: .sleepMs (retryAfterSecs e * 1000) :: (withRetryLoop fn 2 2).1,
             (withRetryLoop fn 2 2).2) := withRetryLoop_rl_step fn 1 2 e hf hrl
      obtain ⟨rest, hrest⟩ := withRetryLoop_head fn 2 1
      have hrest2 : (withRetryLoop fn 2 2).1 = .attemptCall 2 :: rest := hrest
      refine ⟨[], rest, ?_⟩
      rw [withRetry_eq_loop, hstep]
      simp [hrest2]
    · have adv1 : advances (fn 1) 1 = true := hre 1 (Nat.le_refl 1) (by omega)
      obtain ⟨e1, hf1⟩ := advances_failure (fn 1) 1 adv1
      obtain ⟨s1, hstep1⟩ := withRetryLoop_advance fn 1 2 e1 hf1 adv1
      have hstep1b : withRetryLoop fn 1 3
          = (.attemptCall 1 :: .sleepMs s1 :: (withRetryLoop fn 2 2).1,
             (withRetryLoop fn 2 2).2) := hstep1
      have hstep2 : withRetryLoop fn 2 2
          = (.attemptCall 2 :: .sleepMs (retryAfterSecs e * 1000) :: (withRetryLoop fn 3 1).1,
             (withRetryLoop fn 3 1).2) := withRetryLoop_rl_step fn 2 1 e hf hrl
      obtain ⟨rest, hrest⟩ := withRetryLoop_head fn 3 0
      have hrest2 : (withRetryLoop fn 3 1).1 = .attemptCall 3 :: rest := hrest
      refine ⟨[.attemptCall 1, .sleepMs s1], rest, ?_⟩
      rw [withRetry_eq_loop, hstep1b]
      simp [hstep2, hrest2]
  · intro k e hk hre hf hrl hretry
    rcases hk with rfl | rfl
    · have hstep : withRetryLoop fn 1 3
          = (.attemptCall 1 :: .sleepMs (2 ^ 1 * 1000) :: (withRetryLoop fn 2 2).1,
             (withRetryLoop fn 2 2).2) :=
        withRetryLoop_transient_step fn 1 2 e hf hrl (by decide) hretry
      obtain ⟨rest, hrest⟩ := withRetryLoop_head fn 2 1
      have hrest2 : (withRetryLoop fn 2 2).1 = .attemptCall 2 :: rest := hrest
      refine ⟨[], rest, ?_⟩
      rw [withRetry_eq_loop, hstep]
      simp [hrest2]
    · have adv1 : advances (fn 1) 1 = true := hre 1 (Nat.le_refl 1) (by omega)
      obtain ⟨e1, hf1⟩ := advances_failure (fn 1) 1 adv1
      obtain ⟨s1, hstep1⟩ := withRetryLoop_advance fn 1 2 e1 hf1 adv1
      have hstep1b : withRetryLoop fn 1 3
          = (.attemptCall 1 :: .sleepMs s1 :: (withRetryLoop fn 2 2).1,
             (withRetryLoop fn 2 2).2) := hstep1
      have hstep2 : withRetryLoop fn 2 2
          = (.attemptCall 2 :: .sleepMs (2 ^ 2 * 1000) :: (withRetryLoop fn 3 1).1,
             (withRetryLoop fn 3 1).2) :=
        withRetryLoop_transient_step fn 2 1 e hf hrl (by decide) hretry
      obtain ⟨rest, hrest⟩ := withRetryLoop_head fn 3 0
      have hrest2 : (withRetryLoop fn 3 1).1 = .attemptCall 3 :: rest := hrest
      refine ⟨[.attemptCall 1, .sleepMs s1], rest, ?_⟩
      rw [withRetry_eq_loop, hstep1b]
      simp [hstep2, hrest2]
  · intro k e hk1 hk3 hre hf hrl hfatal
    have hk : k = 1 ∨ k = 2 ∨ k = 3 := by omega
    rcases hk with rfl | rfl | rfl
    · have hstep : withRetryLoop fn 1 3 = ([.attemptCall 1], .err e) :=
        withRetryLoop_fatal_step fn 1 2 e hf hrl hfatal
      rw [withRetry_eq_loop]
      constructor
      · rw [hstep]
      · rw [hstep]; simp
    · have adv1 : advances (fn 1) 1 = true := hre 1 (Nat.le_refl 1) (by omega)
      obtain ⟨e1, hf1⟩ := advances_failure (fn 1) 1 adv1
      obtain ⟨s1, hstep1⟩ := withRetryLoop_advance fn 1 2 e1 hf1 adv1
      have hstep1b : withRetryLoop fn 1 3
          = (.attemptCall 1 :: .sleepMs s1 :: (withRetryLoop fn 2 2).1,
             (withRetryLoop fn 2 2).2) := hstep1
      have hstep2 : withRetryLoop fn 2 2 = ([.attemptCall 2], .err e) :=
        withRetryLoop_fatal_step fn 2 1 e hf hrl hfatal
      rw [withRetry_eq_loop]
      constructor
      · rw [hstep1b]; simp [hstep2]
      · rw [hstep1b]; simp [hstep2]
    · have adv1 : advances (fn 1) 1 = true := hre 1 (Nat.le_refl 1) (by omega)
      have adv2 : advances (fn 2) 2 = true := hre 2 (by omega) (by omega)
      obtain ⟨e1, hf1⟩ := advances_failure (fn 1) 1 adv1
      obtain ⟨e2, hf2⟩ := advances_failure (fn 2) 2 adv2
      obtain ⟨s1, hstep1⟩ := withRetryLoop_advance fn 1 2 e1 hf1 adv1
      obtain ⟨s2, hstep2⟩ := withRetryLoop_advance fn 2 1 e2 hf2 adv2
      have hstep1b : withRetryLoop fn 1 3
          = (.attemptCall 1 :: .sleepMs s1 :: (withRetryLoop fn 2 2).1,
             (withRetryLoop fn 2 2).2) := hstep1
      have hstep2b : withRetryLoop fn 2 2
          = (.attemptCall 2 :: .sleepMs s2 :: (withRetryLoop fn 3 1).1,
             (withRetryLoop fn 3 1).2) := hstep2
      have hstep3 : withRetryLoop fn 3 1 = ([.attemptCall 3], .err e) :=
        withRetryLoop_fatal_step fn 3 0 e hf hrl hfatal
      rw [withRetry_eq_loop]
      constructor
      · rw [hstep1b]; simp [hstep2b, hstep3]
      · rw [hstep1b]; simp [hstep2b, hstep3]

/-- A call that is rate limited with a 2 second advised wait on the first
attempt and succeeds on the second. -/
def rlThenSuccess : Nat → CallResult Nat := fun n =>
  if n = 1 then .failure { code := some "rate_limited", retryAfter := some 2 } else .success 7

/-- Witness for C3 at a concrete call: rate limited on attempt 1 with a 2
second advised wait, so the trace sleeps 2000 ms and then attempts again. -/
theorem withRetry_policy_witness :
    [RetryEvent.attemptCall 1, RetryEvent.sleepMs 2000, RetryEvent.attemptCall 2]
      <:+: (withRetry rlThenSuccess).1 := by
  have h := (withRetry_policy Nat rlThenSuccess).2.1 1
    { code := some "rate_limited", retryAfter := some 2 }
    (Or.inl rfl) (by intro j h1 h2; omega) rfl rfl
  simpa [retryAfterSecs] using h

/-- An error object signalling the rate limit with a 2 second advised wait. -/
def rateLimitedErr : JsError := { code := some "rate_limited", retryAfter := some 2 }

/-- A remote call failing with the rate limit signal on every attempt. -/
def alwaysRateLimited : Nat → CallResult Nat := fun _ => .failure rateLimitedErr

/-- C4 (refuted by the code): when every attempt fails with a rate limit
signal, the wrapper uses its three attempts and then falls out of the for
loop, returning undefined: the call ends with no result and with no raised
error, so exhaustion of the ceiling does not propagate an error for the
rate limit class. -/
theorem withRetry_rate_limit_exhaustion_no_raise :
    (withRetry alwaysRateLimited).2 = RetryOutcome.noResult
    ∧ numAttempts (withRetry alwaysRateLimited).1 = 3 := by
  exact ⟨by decide, by decide⟩

/-! ## Theorems: property mapper -/

theorem mapCopyLoop_not_touched (props : List (String × SourceProp)) (f : String) :
    ∀ (fs : List String) (m : List (String × PropValue)),
      (f ∉ fs ∨ jsGet props f = none ∨ f = "案件詳細" ∨ f = "案件名") →
      jsGet (mapCopyLoop props fs m) f = jsGet m f := by
  intro fs
  induction fs with
  | nil => intro m h; rfl
  | cons g rest ih =>
    intro m h
    have hrest : f ∉ rest ∨ jsGet props f = none ∨ f = "案件詳細" ∨ f = "案件名" := by
      rcases h with h | h
      · exact Or.inl (fun hm => h (List.mem_cons_of_mem g hm))
      · exact Or.inr h
    simp only [mapCopyLoop]
    by_cases hg1 : g = "案件詳細"
    · rw [if_pos hg1]
      exact ih m hrest
    · rw [if_neg hg1]
      by_cases hg2 : g = "案件名"
      · rw [if_pos hg2]
        exact ih m hrest
      · rw [if_neg hg2]
        cases hq : jsGet props g with
        | none => exact ih m hrest
        | some q =>
          have hgf : g ≠ f := by
            intro he
            subst he
            rcases h with h | h | h | h
            · exact h (List.mem_cons_self g rest)
            · rw [hq] at h; cases h
            · exact hg1 h
            · exact hg2 h
          rw [ih (jsSet m g (buildPropertyValue q)) hrest,
            jsGet_jsSet_ne m g f _ (Ne.symm hgf)]

theorem mapCopyLoop_found (props : List (String × SourceProp)) (f : String) (p : SourceProp)
    (hd : f ≠ "案件詳細") (ht : f ≠ "案件名") (hp : jsGet props f = some p) :
    ∀ (fs : List String) (m : List (String × PropValue)), f ∈ fs →
      jsGet (mapCopyLoop props fs m) f = some (buildPropertyValue p) := by
  intro fs
  induction fs with
  | nil => intro m hm; cases hm
  | cons g rest ih =>
    intro m hm
    simp only [mapCopyLoop]
    by_cases hg1 : g = "案件詳細"
    · rw [if_pos hg1]
      refine ih m ?_
      rcases List.mem_cons.mp hm with he | hr
      · exact absurd (he.trans hg1) hd
      · exact hr
    · rw [if_neg hg1]
      by_cases hg2 : g = "案件名"
      · rw [if_pos hg2]
        refine ih m ?_
        rcases List.mem_cons.mp hm with he | hr
        · exact absurd (he.trans hg2) ht
        · exact hr
      · rw [if_neg hg2]
        rcases List.mem_cons.mp hm with he | hr
        · subst he
          rw [hp]
          by_cases hr2 : f ∈ rest
          · exact ih _ hr2
          · rw [mapCopyLoop_not_touched props f rest _ (Or.inl hr2)]
            exact jsGet_jsSet_self m f _
        · cases hq : jsGet props g with
          | none => exact ih m hr
          | some q => exact ih _ hr

theorem titleStep_get_ne (props : List (String × SourceProp)) (m : List (String × PropValue))
    (f : String) (h : f ≠ "案件名") : jsGet (titleStep props m) f = jsGet m f := by
  unfold titleStep
  cases htp : jsGet props "案件名" with
  | none => rfl
  | some tp => exact jsGet_jsSet_ne _ _ _ _ h

theorem masterIdStep_get_ne (props : List (String × SourceProp)) (m : List (String × PropValue))
    (f : String) (h : f ≠ "マスター案件ID") : jsGet (masterIdStep props m) f = jsGet m f := by
  unfold masterIdStep
  cases hid : jsGet props "案件ID" with
  | none => rfl
  | some idp =>
    dsimp only
    cases hu : idp.unique_id with
    | none => rfl
    | some uid => exact jsGet_jsSet_ne _ _ _ _ h

theorem mapProperties_other_key (page : Page) (cf : List String) (f : String)
    (h1 : f ≠ "案件名") (h2 : f ≠ "マスター案件ID") :
    jsGet (mapProperties page cf) f = jsGet (mapCopyLoop page.properties cf []) f := by
  unfold mapProperties
  rw [masterIdStep_get_ne _ _ _ h2, titleStep_get_ne _ _ _ h1]

theorem mapProperties_absent (page : Page) (cf : List String) (f : String)
    (hf : jsGet page.properties f = none) (h2 : f ≠ "マスター案件ID") :
    jsGet (mapProperties page cf) f = none := by
  by_cases h1 : f = "案件名"
  · subst h1
    unfold mapProperties
    rw [masterIdStep_get_ne _ _ _ h2]
    unfold titleStep
    rw [hf]
    exact mapCopyLoop_not_touched _ _ cf [] (Or.inr (Or.inr (Or.inr rfl)))
  · rw [mapProperties_other_key page cf f h1 h2]
    exact mapCopyLoop_not_touched _ _ cf [] (Or.inr (Or.inl hf))

theorem mapProperties_found (page : Page) (cf : List String) (f : String) (p : SourceProp)
    (hmem : f ∈ cf) (hd : f ≠ "案件詳細") (h1 : f ≠ "案件名") (h2 : f ≠ "マスター案件ID")
    (hp : jsGet page.properties f = some p) :
    jsGet (mapProperties page cf) f = some (buildPropertyValue p) := by
  rw [mapProperties_other_key page cf f h1 h2]
  exact mapCopyLoop_found page.properties f p hd h1 hp cf [] hmem

theorem mapProperties_title (page : Page) (cf : List String) (tp : SourceProp)
    (htp : jsGet page.properties "案件名" = some tp) :
    jsGet (mapProperties page cf) "案件名" = some (PropValue.title (tp.title.getD [])) := by
  unfold mapProperties
  rw [masterIdStep_get_ne _ _ _ (by decide : ("案件名" : String) ≠ "マスター案件ID")]
  unfold titleStep
  rw [htp]
  exact jsGet_jsSet_self _ _ _

theorem mapProperties_masterId (page : Page) (cf : List String) (idp : SourceProp) (uid : UniqueId)
    (hid : jsGet page.properties "案件ID" = some idp) (hu : idp.unique_id = some uid) :
    jsGet (mapProperties page cf) "マスター案件ID" = some (PropValue.number uid.number) := by
  unfold mapProperties masterIdStep
  rw [hid]
  dsimp only
  rw [hu]
  exact jsGet_jsSet_self _ _ _

/-- The property type tags with a dedicated arm in buildPropertyValue. -/
def knownPropTypes : List String :=
  ["rich_text", "number", "select", "multi_select", "date", "url", "checkbox", "email",
   "phone_number"]

/-- C6: every listed and present field is emitted with the documented shape
for its source type, a present select with no selection is emitted as an
explicit null marker, a multi-choice with no selections is emitted as an
empty list, an unrecognized type falls back to the text span shape, and
fields that are not listed or are absent on the source are omitted. -/
theorem buildPropertyValue_shapes :
    (∀ p : SourceProp, p.type = "rich_text" →
        buildPropertyValue p = PropValue.rich_text (p.rich_text.getD []))
    ∧ (∀ p : SourceProp, p.type = "number" → buildPropertyValue p = PropValue.number p.number)
    ∧ (∀ (p : SourceProp) (s : SelectVal), p.type = "select" → p.select = some s →
        buildPropertyValue p = PropValue.select (some s.name))
    ∧ (∀ p : SourceProp, p.type = "select" → p.select = none →
        buildPropertyValue p = PropValue.select none)
    ∧ (∀ (p : SourceProp) (l : List SelectVal), p.type = "multi_select" → p.multi_select = some l →
        buildPropertyValue p = PropValue.multi_select (l.map SelectVal.name))
    ∧ (∀ p : SourceProp, p.type = "multi_select" → p.multi_select = none →
        buildPropertyValue p = PropValue.multi_select [])
    ∧ (∀ p : SourceProp, p.type = "date" → buildPropertyValue p = PropValue.date p.date)
    ∧ (∀ p : SourceProp, p.type = "url" → buildPropertyValue p = PropValue.url p.url)
    ∧ (∀ p : SourceProp, p.type = "checkbox" → buildPropertyValue p = PropValue.checkbox p.checkbox)
    ∧ (∀ p : SourceProp, p.type = "email" → buildPropertyValue p = PropValue.email p.email)
    ∧ (∀ p : SourceProp, p.type = "phone_number" →
        buildPropertyValue p = PropValue.phone_number p.phone_number)
    ∧ (∀ p : SourceProp, p.type ∉ knownPropTypes →
        buildPropertyValue p = PropValue.rich_text (p.rich_text.getD []))
    ∧ (∀ (page : Page) (cf : List String) (f : String), f ∉ cf → f ≠ "案件名" →
        f ≠ "マスター案件ID" → jsGet (mapProperties page cf) f = none)
    ∧ (∀ (page : Page) (cf : List String) (f : String), jsGet page.properties f = none →
        f ≠ "マスター案件ID" → jsGet (mapProperties page cf) f = none)
    ∧ (∀ (page : Page) (cf : List String) (f : String) (p : SourceProp),
        f ∈ cf → f ≠ "案件詳細" → f ≠ "案件名" → f ≠ "マスター案件ID" →
        jsGet page.properties f = some p →
        jsGet (mapProperties page cf) f = some (buildPropertyValue p)) := by
  refine ⟨?_, ?_, ?_, ?_, ?_, ?_, ?_, ?_, ?_, ?_, ?_, ?_, ?_, ?_, ?_⟩
  · intro p h; simp [buildPropertyValue, h]
  · intro p h; simp [buildPropertyValue, h]
  · intro p s h hs; simp [buildPropertyValue, h, hs]
  · intro p h hs; simp [buildPropertyValue, h, hs]
  · intro p l h hl; simp [buildPropertyValue, h, hl]
  · intro p h hl; simp [buildPropertyValue, h, hl]
  · intro p h; simp [buildPropertyValue, h]
  · intro p h; simp [buildPropertyValue, h]
  · intro p h; simp [buildPropertyValue, h]
  · intro p h; simp [buildPropertyValue, h]
  · intro p h; simp [buildPropertyValue, h]
  · intro p h
    simp [knownPropTypes] at h
    obtain ⟨h1, h2, h3, h4, h5, h6, h7, h8, h9⟩ := h
    simp [buildPropertyValue, h1, h2, h3, h4, h5, h6, h7, h8, h9]
  · intro page cf f hcf h1 h2
    rw [mapProperties_other_key page cf f h1 h2]
    exact mapCopyLoop_not_touched _ _ cf [] (Or.inl hcf)
  · intro page cf f hf h2
    exact mapProperties_absent page cf f hf h2
  · intro page cf f p hmem hd h1 h2 hp
    exact mapProperties_found page cf f p hmem hd h1 h2 hp

/-- The copy list of config/property-mapping.json as exercised by the
repository tests. -/
def standardCopyFields : List String :=
  ["案件名", "カテゴリ", "タグ", "案件概要", "仕事の特徴", "経験レベル", "必須スキル",
   "推奨スキル", "納期目安", "想定工数", "単発/継続", "報酬形態", "報酬金額", "報酬詳細",
   "募集人数", "契約形態", "応募フォーム", "案件詳細"]

/-- A master record that carries its unique identifier but has no title
property at all. -/
def pageWithoutTitle : Page :=
  { id := "job-1",
    properties := [("案件ID", { type := "unique_id", unique_id := some { number := some 1001 } })] }

/-- A master record with title, category, tier and identifier populated. -/
def pageFull : Page :=
  { id := "job-2",
    properties :=
      [("案件名", { type := "title", title := some [{ plain_text := "テスト案件" }] }),
       ("案件タイプ", { type := "select", select := some { name := "動画制作" } }),
       ("レベル", { type := "select", select := some { name := "レベル3" } }),
       ("案件ID", { type := "unique_id", unique_id := some { number := some 1001 } }),
       ("カテゴリ", { type := "select", select := some { name := "YouTube動画編集" } })] }

/-- Witness for C6 at concrete inputs: a present select with no selection, a
multi-choice with no selections, an unrecognized type, and a field missing
from the copy list on a concrete page. -/
theorem buildPropertyValue_shapes_witness :
    buildPropertyValue { type := "select", select := none } = PropValue.select none
    ∧ buildPropertyValue { type := "multi_select", multi_select := some [] }
        = PropValue.multi_select []
    ∧ buildPropertyValue { type := "status" } = PropValue.rich_text []
    ∧ jsGet (mapProperties pageFull standardCopyFields) "ステータス" = none := by
  obtain ⟨h1, h2, h3, h4, h5, h6, h7, h8, h9, h10, h11, h12, h13, h14, h15⟩ :=
    buildPropertyValue_shapes
  exact ⟨h4 _ rfl rfl, h5 _ [] rfl rfl, h12 _ (by decide),
    h13 pageFull standardCopyFields "ステータス" (by decide) (by decide) (by decide)⟩

/-- C5 counterexample: for the record without a title property the mapper
output omits the title field entirely, while the same record is otherwise
valid and receives its master identifier back-reference; the output of the
mapper therefore does not always contain the title field. -/
theorem mapProperties_missing_title_cex :
    jsGet (mapProperties pageWithoutTitle standardCopyFields) "案件名" = none
    ∧ jsGet (mapProperties pageWithoutTitle standardCopyFields) "マスター案件ID"
        = some (PropValue.number (some 1001)) := by
  exact ⟨rfl, rfl⟩

theorem processTarget_create_props (env : SyncEnv) (mid : Int) (props : List (String × PropValue))
    (children : List (ContentBlock String)) (dbKey dbId : String) (p : List (String × PropValue))
    (c : List (ContentBlock String))
    (h : SyncAction.create dbId p c ∈ (processTarget env mid props children dbKey).1) :
    p = props := by
  unfold processTarget at h
  cases hc : env.cfgPublic dbKey with
  | none => rw [hc] at h; cases h
  | some d =>
    rw [hc] at h
    dsimp only at h
    by_cases hd : d = ""
    · rw [if_pos hd] at h; cases h
    · rw [if_neg hd] at h
      cases hq : env.queryResult d mid with
      | error u => rw [hq] at h; dsimp only at h; simp at h
      | ok ex =>
        rw [hq] at h
        dsimp only at h
        by_cases hex : ex.length > 0
        · rw [if_pos hex] at h; simp at h
        · rw [if_neg hex] at h
          cases hcr : env.createResult d with
          | ok pid => rw [hcr] at h; dsimp only at h; simp at h; exact h.2.1
          | error u => rw [hcr] at h; dsimp only at h; simp at h; exact h.2.1

theorem processTargets_create_props (env : SyncEnv) (mid : Int)
    (props : List (String × PropValue)) (children : List (ContentBlock String)) :
    ∀ (ks : List String) (dbId : String) (p : List (String × PropValue))
      (c : List (ContentBlock String)),
      SyncAction.create dbId p c ∈ (processTargets env mid props children ks).1 → p = props := by
  intro ks
  induction ks with
  | nil => intro dbId p c h; cases h
  | cons k rest ih =>
    intro dbId p c h
    simp only [processTargets, List.mem_append] at h
    rcases h with h | h
    · exact processTarget_create_props env mid props children k dbId p c h
    · exact ih dbId p c h

/-- C5 (amended): whenever the source record has the title property, the
mapper copies its span list verbatim into the title field, with a missing
list defaulting to empty; whenever the source record has the identifier
property with a unique_id payload, the mapper synthesizes the master
identifier back-reference from its number; and every record created by the
sync carries a back-reference number equal to the master identifier of its
source record. -/
theorem mapProperties_title_and_masterId :
    (∀ (page : Page) (cf : List String) (tp : SourceProp),
        jsGet page.properties "案件名" = some tp →
        jsGet (mapProperties page cf) "案件名" = some (PropValue.title (tp.title.getD [])))
    ∧ (∀ (page : Page) (cf : List String) (idp : SourceProp) (uid : UniqueId),
        jsGet page.properties "案件ID" = some idp → idp.unique_id = some uid →
        jsGet (mapProperties page cf) "マスター案件ID" = some (PropValue.number uid.number))
    ∧ (∀ (env : SyncEnv) (cf : List String) (job : Page) (mid : Int) (dbId : String)
        (props : List (String × PropValue)) (children : List (ContentBlock String)),
        getMasterId job = some mid →
        SyncAction.create dbId props children ∈ (processJob env cf job).1 →
        jsGet props "マスター案件ID" = some (PropValue.number (some mid))) := by
  refine ⟨mapProperties_title, mapProperties_masterId, ?_⟩
  intro env cf job mid dbId props children hmid hmem
  obtain ⟨u, hu1, hu2⟩ := Option.bind_eq_some.mp hmid
  obtain ⟨idp, hidp, huid⟩ := Option.bind_eq_some.mp hu1
  have hprops : props = mapProperties job cf := by
    simp only [processJob] at hmem
    rw [hmid] at hmem
    cases hjt : getJobType job with
    | none =>
      rw [hjt] at hmem
      simp [jsTruthy] at hmem
    | some jt =>
      rw [hjt] at hmem
      cases hlv : getLevel job with
      | none =>
        rw [hlv] at hmem
        simp [jsTruthy] at hmem
      | some lv =>
        rw [hlv] at hmem
        by_cases hjt0 : jt = ""
        · subst hjt0; simp [jsTruthy] at hmem
        · by_cases hlv0 : lv = ""
          · subst hlv0; simp [jsTruthy] at hmem
          · rw [if_neg (by simp [jsTruthy, hjt0, hlv0])] at hmem
            dsimp only at hmem
            by_cases hemp : (getTargetDatabases jt lv).isEmpty
            · rw [if_pos hemp] at hmem; cases hmem
            · rw [if_neg hemp] at hmem
              exact processTargets_create_props env mid (mapProperties job cf) _ _ dbId props
                children hmem
  subst hprops
  rw [mapProperties_masterId job cf idp u hidp huid, hu2]

/-- A sync environment with one configured target whose collection is empty,
so a creation happens there. -/
def envCreate : SyncEnv :=
  { cfgPublic := fun k => if k = "video_level3" then some "db-v3" else none,
    queryResult := fun _ _ => .ok [],
    createResult := fun _ => .ok "new-page",
    blocksResult := fun _ => .ok [] }

/-- Witness for C5 at a concrete record: the title is copied verbatim, the
back-reference equals the unique identifier, and a record actually created
by the sync carries that back-reference. -/
theorem mapProperties_title_and_masterId_witness :
    jsGet (mapProperties pageFull standardCopyFields) "案件名"
        = some (PropValue.title [{ plain_text := "テスト案件" }])
    ∧ jsGet (mapProperties pageFull standardCopyFields) "マスター案件ID"
        = some (PropValue.number (some 1001))
    ∧ jsGet (mapProperties pageFull standardCopyFields) "マスター案件ID"
        = some (PropValue.number (some 1001)) := by
  obtain ⟨ha, hb, hc⟩ := mapProperties_title_and_masterId
  refine ⟨ha pageFull standardCopyFields _ rfl, hb pageFull standardCopyFields _ _ rfl rfl, ?_⟩
  exact hc envCreate standardCopyFields pageFull 1001 "db-v3"
    (mapProperties pageFull standardCopyFields) [] rfl (by decide)

/-! ## Theorems: sync orchestrator -/

theorem createsOf_append (a b : List SyncAction) :
    createsOf (a ++ b) = createsOf a ++ createsOf b := by
  simp [createsOf, List.filter_append]

theorem processTarget_all_existing (env : SyncEnv) (mid : Int)
    (props : List (String × PropValue)) (children : List (ContentBlock String)) (dbKey : String)
    (hq : ∀ dbId m, ∃ l, env.queryResult dbId m = Except.ok l ∧ l ≠ []) :
    createsOf (processTarget env mid props children dbKey).1 = []
    ∧ (processTarget env mid props children dbKey).2.created = 0 := by
  unfold processTarget
  cases hc : env.cfgPublic dbKey with
  | none => exact ⟨rfl, rfl⟩
  | some d =>
    dsimp only
    by_cases hd : d = ""
    · rw [if_pos hd]; exact ⟨rfl, rfl⟩
    · rw [if_neg hd]
      obtain ⟨l, hl, hne⟩ := hq d mid
      rw [hl]
      dsimp only
      rw [if_pos (List.length_pos.mpr hne)]
      exact ⟨rfl, rfl⟩

theorem processTargets_all_existing (env : SyncEnv) (mid : Int)
    (props : List (String × PropValue)) (children : List (ContentBlock String))
    (hq : ∀ dbId m, ∃ l, env.queryResult dbId m = Except.ok l ∧ l ≠ []) :
    ∀ ks : List String,
      createsOf (processTargets env mid props children ks).1 = []
      ∧ (processTargets env mid props children ks).2.created = 0 := by
  intro ks
  induction ks with
  | nil => exact ⟨rfl, rfl⟩
  | cons k rest ih =>
    simp only [processTargets]
    obtain ⟨h1, h2⟩ := processTarget_all_existing env mid props children k hq
    constructor
    · rw [createsOf_append, h1, ih.1]; rfl
    · simp [addTally, h2, ih.2]

theorem processJob_all_existing (env : SyncEnv) (cf : List String) (job : Page)
    (hq : ∀ dbId m, ∃ l, env.queryResult dbId m = Except.ok l ∧ l ≠ []) :
    createsOf (processJob env cf job).1 = [] ∧ (processJob env cf job).2.created = 0 := by
  simp only [processJob]
  by_cases hval :
      (!(jsTruthy (getJobType job)) || !(jsTruthy (getLevel job)) || (getMasterId job).isNone)
        = true
  · rw [if_pos hval]; exact ⟨rfl, rfl⟩
  · rw [if_neg hval]
    cases hjt : getJobType job with
    | none => exact ⟨rfl, rfl⟩
    | some jt =>
      cases hlv : getLevel job with
      | none => exact ⟨rfl, rfl⟩
      | some lv =>
        cases hmid : getMasterId job with
        | none => exact ⟨rfl, rfl⟩
        | some mid =>
          dsimp only
          by_cases hemp : (getTargetDatabases jt lv).isEmpty
          · rw [if_pos hemp]; exact ⟨rfl, rfl⟩
          · rw [if_neg hemp]
            exact processTargets_all_existing env mid _ _ hq _

theorem runSync_all_existing (env : SyncEnv) (cf : List String)
    (hq : ∀ dbId m, ∃ l, env.queryResult dbId m = Except.ok l ∧ l ≠ []) :
    ∀ jobs : List Page,
      createsOf (runSync env cf jobs).1 = [] ∧ (runSync env cf jobs).2.created = 0 := by
  intro jobs
  induction jobs with
  | nil => exact ⟨rfl, rfl⟩
  | cons job rest ih =>
    simp only [runSync]
    obtain ⟨h1, h2⟩ := processJob_all_existing env cf job hq
    constructor
    · rw [createsOf_append, h1, ih.1]; rfl
    · simp [addTally, h2, ih.2]

/-- C1: per target, when a record with the master identifier already exists
in the target collection, the sync issues only the existence query, creates
nothing there and tallies one skip; consequently a second run against an
unchanged master state, in which every existence query finds a match,
performs no create call for any record and reports zero created records. -/
theorem sync_skip_existing :
    (∀ (env : SyncEnv) (mid : Int) (props : List (String × PropValue))
        (children : List (ContentBlock String)) (dbKey dbId : String) (existing : List String),
        env.cfgPublic dbKey = some dbId → dbId ≠ "" →
        env.queryResult dbId mid = Except.ok existing → existing ≠ [] →
        processTarget env mid props children dbKey
          = ([SyncAction.queryExisting dbId mid], { created := 0, skipped := 1, errors := 0 }))
    ∧ (∀ (env : SyncEnv) (cf : List String) (jobs : List Page),
        (∀ dbId m, ∃ l, env.queryResult dbId m = Except.ok l ∧ l ≠ []) →
        createsOf (runSync env cf jobs).1 = [] ∧ (runSync env cf jobs).2.created = 0) := by
  constructor
  · intro env mid props children dbKey dbId existing hc hd hq hne
    unfold processTarget
    rw [hc]
    dsimp only
    rw [if_neg hd, hq]
    dsimp only
    rw [if_pos (List.length_pos.mpr hne)]
  · intro env cf jobs hq
    exact runSync_all_existing env cf hq jobs

/-- A sync environment in which every target collection already holds a
matching record. -/
def envAllExisting : SyncEnv :=
  { cfgPublic := fun k => if k = "video_level3" then some "db-v3" else none,
    queryResult := fun _ _ => .ok ["existing-page"],
    createResult := fun _ => .ok "new-page",
    blocksResult := fun _ => .ok [] }

/-- Witness for C1 at a concrete environment whose target collection
already holds the record. -/
theorem sync_skip_existing_witness :
    processTarget envAllExisting 1001 [] [] "video_level3"
      = ([SyncAction.queryExisting "db-v3" 1001], { created := 0, skipped := 1, errors := 0 })
    ∧ (runSync envAllExisting standardCopyFields [pageFull]).2.created = 0 := by
  constructor
  · exact sync_skip_existing.1 envAllExisting 1001 [] [] "video_level3" "db-v3"
      ["existing-page"] rfl (by decide) rfl (by decide)
  · exact (sync_skip_existing.2 envAllExisting standardCopyFields [pageFull]
      (fun dbId m => ⟨["existing-page"], rfl, by decide⟩)).2

/-- C8: a fetched record whose category, tier or master identifier is
missing produces no remote action at all, is tallied as one error, and the
loop continues with the remaining records unchanged. -/
theorem sync_invalid_record :
    ∀ (env : SyncEnv) (cf : List String) (job : Page) (rest : List Page),
      (jsTruthy (getJobType job) = false ∨ jsTruthy (getLevel job) = false
        ∨ getMasterId job = none) →
      processJob env cf job = ([], { created := 0, skipped := 0, errors := 1 })
      ∧ runSync env cf (job :: rest)
          = ((runSync env cf rest).1,
             addTally { created := 0, skipped := 0, errors := 1 } (runSync env cf rest).2) := by
  intro env cf job rest h
  have hguard : (!(jsTruthy (getJobType job)) || !(jsTruthy (getLevel job))
      || (getMasterId job).isNone) = true := by
    rcases h with h | h | h <;> simp [h]
  have hpj : processJob env cf job = ([], { created := 0, skipped := 0, errors := 1 }) := by
    simp only [processJob]
    rw [if_pos hguard]
  refine ⟨hpj, ?_⟩
  simp [runSync, hpj]

/-- A master record that lacks the tier property. -/
def jobMissingLevel : Page :=
  { id := "job-3",
    properties :=
      [("案件タイプ", { type := "select", select := some { name := "動画制作" } }),
       ("案件ID", { type := "unique_id", unique_id := some { number := some 7 } })] }

/-- Witness for C8 at a concrete record that lacks the tier property. -/
theorem sync_invalid_record_witness :
    processJob envAllExisting standardCopyFields jobMissingLevel
      = ([], { created := 0, skipped := 0, errors := 1 })
    ∧ runSync envAllExisting standardCopyFields [jobMissingLevel]
      = ([], { created := 0, skipped := 0, errors := 1 }) := by
  obtain ⟨h1, h2⟩ := sync_invalid_record envAllExisting standardCopyFields jobMissingLevel []
    (Or.inr (Or.inl rfl))
  refine ⟨h1, ?_⟩
  rw [h2]
  rfl

/-! ## Theorems: cleanup orchestrator -/

theorem archivedPages_query (dbId : String) (mid : Int) (t : List CleanupAction) :
    archivedPages (.query dbId mid :: t) = archivedPages t := by
  simp [archivedPages]

theorem archivedPages_append (a b : List CleanupAction) :
    archivedPages (a ++ b) = archivedPages a ++ archivedPages b := by
  simp [archivedPages, List.filterMap_append]

theorem archivedPages_map_archive (l : List String) :
    archivedPages (l.map CleanupAction.archive) = l := by
  induction l with
  | nil => rfl
  | cons p rest ih =>
    simp only [List.map_cons]
    show p :: archivedPages (rest.map CleanupAction.archive) = p :: rest
    rw [ih]

theorem archiveLoop_all_ok (arch : String → Except Unit Unit) :
    ∀ ps : List String, (∀ p ∈ ps, arch p = .ok ()) →
      archiveLoop arch ps = (ps.map CleanupAction.archive, ps.length, true) := by
  intro ps
  induction ps with
  | nil => intro h; rfl
  | cons p rest ih =>
    intro h
    have hp : arch p = .ok () := h p (List.mem_cons_self p rest)
    have hrest := ih (fun q hq => h q (List.mem_cons_of_mem p hq))
    simp only [archiveLoop]
    rw [hp]
    dsimp only
    rw [hrest]
    rfl

theorem processDb_query_mem (env : CleanupEnv) (mid : Int) (dbId : String) (hd : dbId ≠ "") :
    CleanupAction.query dbId mid ∈ (processDb env mid dbId).1 := by
  unfold processDb
  rw [if_neg hd]
  cases hq : env.queryResult dbId mid with
  | error u => exact List.mem_singleton.mpr rfl
  | ok found => exact List.mem_cons_self _ _

theorem processDb_all_ok (env : CleanupEnv) (mid : Int) (dbId : String) (found : List String)
    (hd : dbId ≠ "") (hq : env.queryResult dbId mid = .ok found)
    (ha : ∀ p ∈ found, env.archiveResult p = .ok ()) :
    processDb env mid dbId
      = (.query dbId mid :: found.map CleanupAction.archive, found.length, 0) := by
  unfold processDb
  rw [if_neg hd, hq]
  dsimp only
  rw [archiveLoop_all_ok env.archiveResult found ha]
  rfl

theorem processCleanupRecord_query_mem (env : CleanupEnv) (mid : Int) :
    ∀ (dbs : List (String × String)) (dbKey dbId : String),
      (dbKey, dbId) ∈ dbs → dbId ≠ "" →
      CleanupAction.query dbId mid ∈ (processCleanupRecord env mid dbs).1 := by
  intro dbs
  induction dbs with
  | nil => intro k d hm hd; cases hm
  | cons kd rest ih =>
    obtain ⟨k0, d0⟩ := kd
    intro k d hm hd
    simp only [processCleanupRecord, List.mem_append]
    rcases List.mem_cons.mp hm with he | hr
    · left
      injection he with hk hd2
      subst hd2
      exact processDb_query_mem env mid d hd
    · right
      exact ih k d hr hd

theorem processCleanupRecord_all_ok (env : CleanupEnv) (mid : Int) (fnd : String → List String) :
    ∀ dbs : List (String × String),
      (∀ kd ∈ dbs, kd.2 ≠ "" ∧ env.queryResult kd.2 mid = Except.ok (fnd kd.2)
        ∧ ∀ p ∈ fnd kd.2, env.archiveResult p = Except.ok ()) →
      archivedPages (processCleanupRecord env mid dbs).1 = (dbs.map (fun kd => fnd kd.2)).flatten
      ∧ (processCleanupRecord env mid dbs).2.1 = ((dbs.map (fun kd => fnd kd.2)).flatten).length
      ∧ (processCleanupRecord env mid dbs).2.2 = 0 := by
  intro dbs
  induction dbs with
  | nil => intro h; exact ⟨rfl, rfl, rfl⟩
  | cons kd rest ih =>
    obtain ⟨k0, d0⟩ := kd
    intro h
    obtain ⟨hd, hq, ha⟩ := h (k0, d0) (List.mem_cons_self _ rest)
    have hrest := ih (fun x hx => h x (List.mem_cons_of_mem _ hx))
    simp only [processCleanupRecord]
    rw [processDb_all_ok env mid d0 (fnd d0) hd hq ha]
    refine ⟨?_, ?_, ?_⟩
    · rw [archivedPages_append]
      show archivedPages (CleanupAction.query d0 mid :: (fnd d0).map CleanupAction.archive)
          ++ archivedPages (processCleanupRecord env mid rest).1 = _
      rw [archivedPages_query, archivedPages_map_archive, hrest.1]
      simp
    · show (fnd d0).length + (processCleanupRecord env mid rest).2.1 = _
      rw [hrest.2.1]
      simp
    · show 0 + (processCleanupRecord env mid rest).2.2 = 0
      rw [hrest.2.2]

theorem processCleanupRecord_append (env : CleanupEnv) (mid : Int) :
    ∀ dbs1 dbs2 : List (String × String),
      processCleanupRecord env mid (dbs1 ++ dbs2)
        = ((processCleanupRecord env mid dbs1).1 ++ (processCleanupRecord env mid dbs2).1,
           (processCleanupRecord env mid dbs1).2.1 + (processCleanupRecord env mid dbs2).2.1,
           (processCleanupRecord env mid dbs1).2.2 + (processCleanupRecord env mid dbs2).2.2) := by
  intro dbs1 dbs2
  induction dbs1 with
  | nil => simp [processCleanupRecord]
  | cons kd rest ih =>
    obtain ⟨k0, d0⟩ := kd
    simp only [List.cons_append, processCleanupRecord, List.append_eq]
    rw [ih]
    simp [List.append_assoc, Nat.add_assoc]

/-- C9: every configured public collection is searched for the master
identifier, whatever happens in the other collections; when the searches
and archive calls succeed, the archive calls issued are exactly one per
matching record across all collections, in order, so matches in two of six
collections give exactly those archive calls and none against the rest,
several matches inside one collection are all archived, and the counts
match; and the fan-out over a concatenation of collection lists is the
concatenation of the fan-outs, so a failure inside one collection leaves
the processing of the remaining collections unchanged. -/
theorem cleanup_fanout :
    (∀ (env : CleanupEnv) (mid : Int) (dbs : List (String × String)) (dbKey dbId : String),
        (dbKey, dbId) ∈ dbs → dbId ≠ "" →
        CleanupAction.query dbId mid ∈ (processCleanupRecord env mid dbs).1)
    ∧ (∀ (env : CleanupEnv) (mid : Int) (fnd : String → List String)
        (dbs : List (String × String)),
        (∀ kd ∈ dbs, kd.2 ≠ "" ∧ env.queryResult kd.2 mid = Except.ok (fnd kd.2)
          ∧ ∀ p ∈ fnd kd.2, env.archiveResult p = Except.ok ()) →
        archivedPages (processCleanupRecord env mid dbs).1 = (dbs.map (fun kd => fnd kd.2)).flatten
        ∧ (processCleanupRecord env mid dbs).2.1 = ((dbs.map (fun kd => fnd kd.2)).flatten).length
        ∧ (processCleanupRecord env mid dbs).2.2 = 0)
    ∧ (∀ (env : CleanupEnv) (mid : Int) (dbs1 dbs2 : List (String × String)),
        processCleanupRecord env mid (dbs1 ++ dbs2)
          = ((processCleanupRecord env mid dbs1).1 ++ (processCleanupRecord env mid dbs2).1,
             (processCleanupRecord env mid dbs1).2.1 + (processCleanupRecord env mid dbs2).2.1,
             (processCleanupRecord env mid dbs1).2.2
               + (processCleanupRecord env mid dbs2).2.2)) :=
  ⟨fun env mid dbs k d hm hd => processCleanupRecord_query_mem env mid dbs k d hm hd,
   fun env mid fnd dbs h => processCleanupRecord_all_ok env mid fnd dbs h,
   fun env mid dbs1 dbs2 => processCleanupRecord_append env mid dbs1 dbs2⟩

/-- A cleanup environment in which two of the six collections hold matches,
one of them two matches, and every archive call succeeds. -/
def cleanupEnvTwo : CleanupEnv :=
  { queryResult := fun d _ =>
      if d = "dbA" then .ok ["pa1", "pa2"] else if d = "dbB" then .ok ["pb1"] else .ok [],
    archiveResult := fun _ => .ok () }

/-- The six public collection entries as configured for a run. -/
def sixPublicDbs : List (String × String) :=
  [("video_level1", "dbA"), ("video_level2", "dbC"), ("video_level3", "dbD"),
   ("design_level1", "dbB"), ("design_level2", "dbE"), ("design_level3", "dbF")]

/-- The matches each collection holds in the witness environment. -/
def foundTwo : String → List String := fun d =>
  if d = "dbA" then ["pa1", "pa2"] else if d = "dbB" then ["pb1"] else []

/-- Witness for C9: with matches in 2 of the 6 collections, exactly 3
archive calls are issued, all for the matching pages, and a collection
without a match is still queried. -/
theorem cleanup_fanout_witness :
    archivedPages (processCleanupRecord cleanupEnvTwo 1001 sixPublicDbs).1
      = ["pa1", "pa2", "pb1"]
    ∧ (processCleanupRecord cleanupEnvTwo 1001 sixPublicDbs).2.1 = 3
    ∧ CleanupAction.query "dbC" 1001 ∈ (processCleanupRecord cleanupEnvTwo 1001 sixPublicDbs).1 := by
  obtain ⟨ha, hc, _⟩ := cleanup_fanout.2.1 cleanupEnvTwo 1001 foundTwo sixPublicDbs
    (by intro kd hkd; fin_cases hkd <;> exact ⟨by decide, rfl, fun p hp => rfl⟩)
  refine ⟨?_, ?_, ?_⟩
  · rw [ha]; rfl
  · rw [hc]; rfl
  · exact cleanup_fanout.1 cleanupEnvTwo 1001 sixPublicDbs "video_level2" "dbC" (by decide)
      (by decide)
